import Mathlib

/-!
Shallow embedding of the WebSocket connection registry of `sveltekit-ws`
(`src/manager.ts`, class `WebSocketManager`), together with proofs of the
specified properties of its operations.

Modelling decisions:
* The JavaScript `Map<string, WSConnection>` is embedded as an association
  list in insertion order: `set` replaces an existing key in place or appends,
  `delete` removes the entry of a key, `forEach` iterates in list order,
  `size` is the length.  Identifiers are abstracted from UUID strings to `Nat`.
* `randomUUID()` (collision-resistant 128-bit random identifiers) is embedded
  as a fresh-identifier counter carried by the manager state.
* A `ws` channel is embedded by its observable behaviour: its `readyState`
  and whether its `send` respectively `close` methods throw.
* Effects are made explicit: operations return, besides their result, the
  list of channel calls they perform (`send` attempts with the serialized
  frame and whether the call succeeded, and `close` attempts).  A thrown
  exception that the source catches shows up as an event whose `ok` flag is
  `false`; the Lean functions are total, mirroring that no exception escapes.
* `Date.now()` is embedded as a pure clock `Nat → Int` indexed by the number
  of `Date.now()` invocations already performed by the operation; the source
  of `send`/`broadcast` invokes `Date.now()` at most once (invocation 0).
* `JSON.stringify({...message, timestamp: ...})` is embedded as the `Frame`
  record built from the message; serialization of the abstracted `data` field
  is injective, so the record stands for the wire string.
-/

namespace SvelteKitWS

/-- Connection metadata, `Record<string, any>` abstracted to string pairs. -/
abbrev Metadata := List (String × String)

/-- Behavioural embedding of a `ws` `WebSocket` channel: its `readyState`
(1 = OPEN) and whether its `send` / `close` methods throw when invoked. -/
structure WebSocket where
  readyState : Nat
  sendThrows : Bool
  closeThrows : Bool
  deriving DecidableEq

/-- `WSConnection` from `src/types.ts`: channel, identifier, metadata. -/
structure WSConnection where
  ws : WebSocket
  id : Nat
  metadata : Option Metadata
  deriving DecidableEq

/-- `WSMessage` from `src/types.ts`: `type`, `data` (abstracted to `String`),
optional integer `timestamp`. -/
structure WSMessage where
  type : String
  data : String
  timestamp : Option Int
  deriving DecidableEq

/-- The serialized wire frame `{...message, timestamp: ...}`: after the
spread, `timestamp` is always present. -/
structure Frame where
  type : String
  data : String
  timestamp : Int
  deriving DecidableEq

/-- A channel call performed by a registry operation: a `ws.send` attempt
carrying the serialized frame, or a `ws.close` attempt; `ok` is `false`
when the channel method threw (the source catches the exception). -/
inductive Event where
  | sendCall (id : Nat) (frame : Frame) (ok : Bool)
  | closeCall (id : Nat) (ok : Bool)
  deriving DecidableEq

/-- `Map.get`: first entry with the key, if any. -/
def mapGet (l : List (Nat × WSConnection)) (id : Nat) : Option WSConnection :=
  match l with
  | [] => none
  | p :: rest => if p.1 = id then some p.2 else mapGet rest id

/-- `Map.set`: replace the entry of the key in place, or append a new one. -/
def mapSet (l : List (Nat × WSConnection)) (id : Nat) (c : WSConnection) :
    List (Nat × WSConnection) :=
  match l with
  | [] => [(id, c)]
  | p :: rest => if p.1 = id then (id, c) :: rest else p :: mapSet rest id c

/-- `Map.delete`: remove the entry of the key. -/
def mapDelete (l : List (Nat × WSConnection)) (id : Nat) :
    List (Nat × WSConnection) :=
  match l with
  | [] => []
  | p :: rest => if p.1 = id then rest else p :: mapDelete rest id

/-- `Map.has`: whether the key has an entry. -/
def mapHas (l : List (Nat × WSConnection)) (id : Nat) : Bool :=
  (mapGet l id).isSome

/-- The manager state: the `connections` map in insertion order, plus the
fresh-identifier counter embedding `randomUUID()`. -/
structure WebSocketManager where
  nextId : Nat
  connections : List (Nat × WSConnection)
  deriving DecidableEq

/-- A freshly constructed manager: `new WebSocketManager()`. -/
def WebSocketManager.empty : WebSocketManager :=
  { nextId := 0, connections := [] }

/-- `message.timestamp || Date.now()`: JavaScript `||` takes the right
operand when the left is falsy, and the only falsy integer is `0`. -/
def stampTimestamp (ts : Option Int) (now : Int) : Int :=
  match ts with
  | some t => if t = 0 then now else t
  | none => now

/-- The serialized frame `JSON.stringify({...message, timestamp:
message.timestamp || Date.now()})`. -/
def mkFrame (message : WSMessage) (now : Int) : Frame :=
  { type := message.type, data := message.data,
    timestamp := stampTimestamp message.timestamp now }

/-- `addConnection(ws, metadata?)`: generate a fresh id, store the new
record, return it (with the updated manager). -/
def WebSocketManager.addConnection (m : WebSocketManager) (ws : WebSocket)
    (metadata : Option Metadata) : WSConnection × WebSocketManager :=
  let id := m.nextId
  let connection : WSConnection := { ws := ws, id := id, metadata := metadata }
  (connection,
   { nextId := m.nextId + 1, connections := mapSet m.connections id connection })

/-- `getConnection(id)`: look the id up in the map. -/
def WebSocketManager.getConnection (m : WebSocketManager) (id : Nat) :
    Option WSConnection :=
  mapGet m.connections id

/-- `size()`: `this.connections.size`. -/
def WebSocketManager.size (m : WebSocketManager) : Nat :=
  m.connections.length

/-- `send(id, message)`: fail fast when the id is absent or the channel is
not OPEN; otherwise serialize (stamping the timestamp from the clock's
invocation 0 when the supplied one is falsy) and attempt the write inside
`try`/`catch`, reporting a thrown `ws.send` as `false`.  The method never
touches `this.connections`, so no manager is returned. -/
def WebSocketManager.send (m : WebSocketManager) (id : Nat)
    (message : WSMessage) (clock : Nat → Int) : Bool × List Event :=
  match mapGet m.connections id with
  | none => (false, [])
  | some connection =>
    if connection.ws.readyState ≠ 1 then (false, [])
    else
      let payload := mkFrame message (clock 0)
      if connection.ws.sendThrows then (false, [Event.sendCall id payload false])
      else (true, [Event.sendCall id payload true])

/-- `broadcast(message, exclude = [])`: serialize the payload once, before
the loop (so `Date.now()` is invoked at most once, invocation 0), then for
every entry in iteration order skip excluded ids, and on OPEN channels
attempt the write inside a per-recipient `try`/`catch`. -/
def WebSocketManager.broadcast (m : WebSocketManager) (message : WSMessage)
    (exclude : List Nat) (clock : Nat → Int) : List Event :=
  let payload := mkFrame message (clock 0)
  m.connections.filterMap fun p =>
    if p.1 ∈ exclude then none
    else if p.2.ws.readyState = 1 then
      some (Event.sendCall p.1 payload (!p.2.ws.sendThrows))
    else none

/-- Modelled from the spec: the reading of §3 under which the stamping of a
missing timestamp "happens independently for every recipient in a
broadcast", each outbound frame being produced by a separate stamping (a
separate `Date.now()` invocation) at that recipient's send time.  This
definition is not in the source; it exists to be compared with
`WebSocketManager.broadcast`. -/
def broadcastPerRecipientStamp (m : WebSocketManager) (message : WSMessage)
    (exclude : List Nat) (clock : Nat → Int) : List Event :=
  let eligible := m.connections.filter fun p =>
    decide (p.1 ∉ exclude) && decide (p.2.ws.readyState = 1)
  eligible.enum.map fun q =>
    Event.sendCall q.2.1 (mkFrame message (clock q.1)) (!q.2.2.ws.sendThrows)

/-- `removeConnection(id)`: `this.connections.delete(id)`. -/
def WebSocketManager.removeConnection (m : WebSocketManager) (id : Nat) :
    Bool × WebSocketManager :=
  (mapHas m.connections id,
   { m with connections := mapDelete m.connections id })

/-- `disconnect(id)`: `false` when the id is absent; otherwise `try` to
close the channel — when `ws.close()` throws, the `catch` returns `false`
and the `delete` is never reached; when it succeeds, delete the entry and
return `true`. -/
def WebSocketManager.disconnect (m : WebSocketManager) (id : Nat) :
    Bool × WebSocketManager × List Event :=
  match mapGet m.connections id with
  | none => (false, m, [])
  | some connection =>
    if connection.ws.closeThrows then
      (false, m, [Event.closeCall id false])
    else
      (true, { m with connections := mapDelete m.connections id },
       [Event.closeCall id true])

/-- `clear()`: `forEach` closes every channel inside a per-connection
`try`/`catch` that ignores errors, then the map is emptied. -/
def WebSocketManager.clear (m : WebSocketManager) :
    WebSocketManager × List Event :=
  ({ m with connections := [] },
   m.connections.map fun p => Event.closeCall p.1 (!p.2.ws.closeThrows))

/-- Number of `ws.send` attempts directed at a given connection id in an
event log. -/
def countSendTo (id : Nat) (events : List Event) : Nat :=
  (events.filter fun e =>
    match e with
    | Event.sendCall i _ _ => i = id
    | Event.closeCall _ _ => false).length

/-- Number of `ws.close` attempts directed at a given connection id in an
event log. -/
def countCloseTo (id : Nat) (events : List Event) : Nat :=
  (events.filter fun e =>
    match e with
    | Event.sendCall _ _ _ => false
    | Event.closeCall i _ => i = id).length

/-- A lifecycle operation on the registry, for sequences of operations. -/
inductive Op where
  | add (ws : WebSocket) (metadata : Option Metadata)
  | remove (id : Nat)
  | disconnect (id : Nat)

/-- Number of `addConnection` calls in a sequence of operations. -/
def addCount : List Op → Nat
  | [] => 0
  | Op.add _ _ :: rest => addCount rest + 1
  | Op.remove _ :: rest => addCount rest
  | Op.disconnect _ :: rest => addCount rest

/-- Run a sequence of operations; the returned `Nat` counts the
`removeConnection` / `disconnect` calls that returned `true`. -/
def run (m : WebSocketManager) : List Op → WebSocketManager × Nat
  | [] => (m, 0)
  | Op.add ws md :: rest => run (m.addConnection ws md).2 rest
  | Op.remove id :: rest =>
      let r := m.removeConnection id
      let k := run r.2 rest
      (k.1, (if r.1 then 1 else 0) + k.2)
  | Op.disconnect id :: rest =>
      let r := m.disconnect id
      let k := run r.2.1 rest
      (k.1, (if r.1 then 1 else 0) + k.2)

/-- Keys of the connection map. -/
def keysOf (l : List (Nat × WSConnection)) : List Nat :=
  l.map Prod.fst

/-- State invariant: every stored key was generated by the counter, hence is
below `nextId` (freshness of `randomUUID`). -/
def Inv (m : WebSocketManager) : Prop :=
  ∀ p ∈ m.connections, p.1 < m.nextId

/-- A healthy OPEN channel. -/
def wsOpenOk : WebSocket := { readyState := 1, sendThrows := false, closeThrows := false }

/-- An OPEN channel whose `send` throws. -/
def wsSendThrow : WebSocket := { readyState := 1, sendThrows := true, closeThrows := false }

/-- An OPEN channel whose `close` throws. -/
def wsCloseThrow : WebSocket := { readyState := 1, sendThrows := false, closeThrows := true }

/-- A CLOSED channel (`readyState` 3). -/
def wsClosed : WebSocket := { readyState := 3, sendThrows := false, closeThrows := false }

/-- A registry holding one healthy OPEN connection under id 0. -/
def sampleManagerOpen : WebSocketManager :=
  { nextId := 1, connections := [(0, { ws := wsOpenOk, id := 0, metadata := none })] }

/-- A registry holding two healthy OPEN connections under ids 0 and 1. -/
def sampleManagerTwo : WebSocketManager :=
  { nextId := 2,
    connections := [(0, { ws := wsOpenOk, id := 0, metadata := none }),
                    (1, { ws := wsOpenOk, id := 1, metadata := none })] }

/-- A registry holding one OPEN connection whose `send` throws, under id 0. -/
def sampleManagerSendThrow : WebSocketManager :=
  { nextId := 1, connections := [(0, { ws := wsSendThrow, id := 0, metadata := none })] }

/-- A registry holding one OPEN connection whose `close` throws, under id 0. -/
def sampleManagerCloseThrow : WebSocketManager :=
  { nextId := 1, connections := [(0, { ws := wsCloseThrow, id := 0, metadata := none })] }

/-- A sample operation sequence: two adds, a successful removal, the same
removal repeated (a no-op), a successful disconnect, and a disconnect of an
absent id. -/
def sampleOps : List Op :=
  [Op.add wsOpenOk none, Op.remove 0, Op.remove 0,
   Op.add wsClosed none, Op.disconnect 1, Op.disconnect 5]

/-! ## Lemmas about the map embedding -/

theorem mapGet_mapSet_self (l : List (Nat × WSConnection)) (id : Nat)
    (c : WSConnection) : mapGet (mapSet l id c) id = some c := by
  induction l with
  | nil => simp [mapSet, mapGet]
  | cons p rest ih =>
    by_cases h : p.1 = id
    · simp [mapSet, h, mapGet]
    · simp [mapSet, h, mapGet, ih]

theorem mapGet_eq_none_of_not_mem (l : List (Nat × WSConnection)) (id : Nat)
    (h : id ∉ keysOf l) : mapGet l id = none := by
  induction l with
  | nil => rfl
  | cons p rest ih =>
    simp only [keysOf, List.map_cons, List.mem_cons, not_or] at h
    have hne : p.1 ≠ id := fun hpe => h.1 hpe.symm
    simpa [mapGet, hne] using ih (by simpa [keysOf] using h.2)

theorem mapDelete_of_not_mem (l : List (Nat × WSConnection)) (id : Nat)
    (h : id ∉ keysOf l) : mapDelete l id = l := by
  induction l with
  | nil => rfl
  | cons p rest ih =>
    simp only [keysOf, List.map_cons, List.mem_cons, not_or] at h
    have hne : p.1 ≠ id := fun hpe => h.1 hpe.symm
    simpa [mapDelete, hne] using ih (by simpa [keysOf] using h.2)

theorem mapGet_mapDelete_self (l : List (Nat × WSConnection)) (id : Nat)
    (hnd : (keysOf l).Nodup) : mapGet (mapDelete l id) id = none := by
  induction l with
  | nil => rfl
  | cons p rest ih =>
    simp only [keysOf, List.map_cons, List.nodup_cons] at hnd
    by_cases h : p.1 = id
    · have : id ∉ keysOf rest := by
        subst h; simpa [keysOf] using hnd.1
      simpa [mapDelete, h] using mapGet_eq_none_of_not_mem rest id this
    · simpa [mapDelete, h, mapGet] using ih hnd.2

theorem mapSet_of_not_mem (l : List (Nat × WSConnection)) (id : Nat)
    (c : WSConnection) (h : id ∉ keysOf l) : mapSet l id c = l ++ [(id, c)] := by
  induction l with
  | nil => rfl
  | cons p rest ih =>
    simp only [keysOf, List.map_cons, List.mem_cons, not_or] at h
    have hne : p.1 ≠ id := fun hpe => h.1 hpe.symm
    simpa [mapSet, hne] using ih (by simpa [keysOf] using h.2)

theorem mapDelete_length_of_get (l : List (Nat × WSConnection)) (id : Nat)
    (c : WSConnection) (h : mapGet l id = some c) :
    (mapDelete l id).length + 1 = l.length := by
  induction l with
  | nil => simp [mapGet] at h
  | cons p rest ih =>
    by_cases hp : p.1 = id
    · simp [mapDelete, hp]
    · simp only [mapGet, hp, if_false] at h
      simpa [mapDelete, hp] using ih h

theorem mapDelete_mem (l : List (Nat × WSConnection)) (id : Nat)
    (p : Nat × WSConnection) (h : p ∈ mapDelete l id) : p ∈ l := by
  induction l with
  | nil => simp [mapDelete] at h
  | cons q rest ih =>
    by_cases hq : q.1 = id
    · simp only [mapDelete, hq, if_true] at h
      exact List.mem_cons_of_mem q h
    · simp only [mapDelete, hq, if_false, List.mem_cons] at h
      rcases h with h | h
      · exact h ▸ List.mem_cons_self q rest
      · exact List.mem_cons_of_mem q (ih h)

theorem mapGet_isSome_of_get (l : List (Nat × WSConnection)) (id : Nat)
    (c : WSConnection) (h : mapGet l id = some c) : mapHas l id = true := by
  simp [mapHas, h]

theorem filter_key_length_zero (l : List (Nat × WSConnection)) (id : Nat)
    (P : Nat × WSConnection → Bool) (h : id ∉ keysOf l) :
    (l.filter fun p => decide (p.1 = id) && P p).length = 0 := by
  induction l with
  | nil => rfl
  | cons p rest ih =>
    simp only [keysOf, List.map_cons, List.mem_cons, not_or] at h
    have hne : p.1 ≠ id := fun hpe => h.1 hpe.symm
    simpa [List.filter, hne] using ih (by simpa [keysOf] using h.2)

theorem filter_key_length (l : List (Nat × WSConnection)) (id : Nat)
    (c : WSConnection) (P : Nat × WSConnection → Bool)
    (hnd : (keysOf l).Nodup) (h : mapGet l id = some c) :
    (l.filter fun p => decide (p.1 = id) && P p).length
      = if P (id, c) then 1 else 0 := by
  induction l with
  | nil => simp [mapGet] at h
  | cons p rest ih =>
    simp only [keysOf, List.map_cons, List.nodup_cons] at hnd
    by_cases hp : p.1 = id
    · simp only [mapGet, hp, if_true, Option.some.injEq] at h
      have hid : id ∉ keysOf rest := by
        subst hp; simpa [keysOf] using hnd.1
      have hpe : p = (id, c) := by
        cases p; simp_all
      have hzero := filter_key_length_zero rest id P hid
      by_cases hP : P (id, c)
      · simp [List.filter, hpe, hP, hzero]
      · simp [List.filter, hpe, hP, hzero]
    · simp only [mapGet, hp, if_false] at h
      simpa [List.filter, hp] using ih hnd.2 h

theorem not_mem_of_mapGet_eq_none (l : List (Nat × WSConnection)) (id : Nat)
    (h : mapGet l id = none) : id ∉ keysOf l := by
  induction l with
  | nil => simp [keysOf]
  | cons p rest ih =>
    by_cases hp : p.1 = id
    · simp [mapGet, hp] at h
    · simp only [mapGet, hp, if_false] at h
      simp only [keysOf, List.map_cons, List.mem_cons, not_or]
      exact ⟨fun he => hp he.symm, by simpa [keysOf] using ih h⟩

theorem mapGet_mem (l : List (Nat × WSConnection)) (id : Nat) (c : WSConnection)
    (h : mapGet l id = some c) : (id, c) ∈ l := by
  induction l with
  | nil => simp [mapGet] at h
  | cons p rest ih =>
    by_cases hp : p.1 = id
    · simp only [mapGet, hp, if_true, Option.some.injEq] at h
      have hpe : p = (id, c) := by cases p; simp_all
      exact hpe ▸ List.mem_cons_self p rest
    · simp only [mapGet, hp, if_false] at h
      exact List.mem_cons_of_mem p (ih h)

theorem countCloseTo_map_zero (l : List (Nat × WSConnection)) (id : Nat)
    (h : id ∉ keysOf l) :
    countCloseTo id (l.map fun p => Event.closeCall p.1 (!p.2.ws.closeThrows)) = 0 := by
  induction l with
  | nil => rfl
  | cons p rest ih =>
    simp only [keysOf, List.map_cons, List.mem_cons, not_or] at h
    have hne : p.1 ≠ id := fun hpe => h.1 hpe.symm
    simpa [countCloseTo, List.filter, hne] using
      ih (by simpa [keysOf] using h.2)

theorem countCloseTo_map_one (l : List (Nat × WSConnection)) (id : Nat)
    (c : WSConnection) (hnd : (keysOf l).Nodup) (h : mapGet l id = some c) :
    countCloseTo id (l.map fun p => Event.closeCall p.1 (!p.2.ws.closeThrows)) = 1 := by
  induction l with
  | nil => simp [mapGet] at h
  | cons p rest ih =>
    simp only [keysOf, List.map_cons, List.nodup_cons] at hnd
    by_cases hp : p.1 = id
    · have hid : id ∉ keysOf rest := by
        subst hp; simpa [keysOf] using hnd.1
      have hz := countCloseTo_map_zero rest id hid
      simp only [countCloseTo, List.filter] at hz ⊢
      simp [hp, hz]
    · simp only [mapGet, hp, if_false] at h
      have hrec := ih hnd.2 h
      simp only [countCloseTo, List.filter] at hrec ⊢
      simp [hp, hrec]

theorem countSendTo_cons_sendCall (id j : Nat) (frame : Frame) (b : Bool)
    (evs : List Event) :
    countSendTo id (Event.sendCall j frame b :: evs)
      = (if j = id then 1 else 0) + countSendTo id evs := by
  by_cases h : j = id
  · simp only [countSendTo, List.filter, h, decide_True, if_true,
      List.length_cons]
    omega
  · simp [countSendTo, List.filter, h]

theorem countSendTo_broadcastList_zero (l : List (Nat × WSConnection))
    (frame : Frame) (exclude : List Nat) (id : Nat) (h : id ∉ keysOf l) :
    countSendTo id (l.filterMap fun p =>
      if p.1 ∈ exclude then none
      else if p.2.ws.readyState = 1 then
        some (Event.sendCall p.1 frame (!p.2.ws.sendThrows))
      else none) = 0 := by
  induction l with
  | nil => rfl
  | cons p rest ih =>
    simp only [keysOf, List.map_cons, List.mem_cons, not_or] at h
    have hne : p.1 ≠ id := fun hpe => h.1 hpe.symm
    have hrec := ih (by simpa [keysOf] using h.2)
    by_cases hex : p.1 ∈ exclude
    · simpa [List.filterMap_cons, hex] using hrec
    · by_cases hrs : p.2.ws.readyState = 1
      · rw [List.filterMap_cons]
        simp only [hex, if_false, hrs, if_true]
        rw [countSendTo_cons_sendCall]
        simp [hne, hrec]
      · simpa [List.filterMap_cons, hex, hrs] using hrec

theorem countSendTo_broadcastList (l : List (Nat × WSConnection))
    (frame : Frame) (exclude : List Nat) (id : Nat) (c : WSConnection)
    (hnd : (keysOf l).Nodup) (h : mapGet l id = some c) :
    countSendTo id (l.filterMap fun p =>
      if p.1 ∈ exclude then none
      else if p.2.ws.readyState = 1 then
        some (Event.sendCall p.1 frame (!p.2.ws.sendThrows))
      else none)
      = if id ∉ exclude ∧ c.ws.readyState = 1 then 1 else 0 := by
  induction l with
  | nil => simp [mapGet] at h
  | cons p rest ih =>
    simp only [keysOf, List.map_cons, List.nodup_cons] at hnd
    by_cases hp : p.1 = id
    · simp only [mapGet, hp, if_true, Option.some.injEq] at h
      have hid : id ∉ keysOf rest := by
        subst hp; simpa [keysOf] using hnd.1
      have hz := countSendTo_broadcastList_zero rest frame exclude id hid
      by_cases hex : id ∈ exclude
      · have hexp : p.1 ∈ exclude := hp ▸ hex
        simp [List.filterMap_cons, hexp, hz, hex]
      · have hexp : p.1 ∉ exclude := fun hmem => hex (hp ▸ hmem)
        by_cases hrs : c.ws.readyState = 1
        · have hrsp : p.2.ws.readyState = 1 := by rw [h]; exact hrs
          rw [List.filterMap_cons]
          simp only [hexp, if_false, hrsp, if_true]
          rw [countSendTo_cons_sendCall]
          simp [hp, hz, hex, hrs]
        · have hrsp : ¬ p.2.ws.readyState = 1 := by rw [h]; exact hrs
          simp [List.filterMap_cons, hexp, hrsp, hz, hex, hrs]
    · simp only [mapGet, hp, if_false] at h
      have hrec := ih hnd.2 h
      by_cases hex : p.1 ∈ exclude
      · simpa [List.filterMap_cons, hex] using hrec
      · by_cases hrs : p.2.ws.readyState = 1
        · rw [List.filterMap_cons]
          simp only [hex, if_false, hrs, if_true]
          rw [countSendTo_cons_sendCall]
          simp [hp, hrec]
        · simpa [List.filterMap_cons, hex, hrs] using hrec

theorem send_frame_eq (m : WebSocketManager) (id : Nat) (message : WSMessage)
    (clock : Nat → Int) (i : Nat) (f : Frame) (b : Bool)
    (h : Event.sendCall i f b ∈ (m.send id message clock).2) :
    f = mkFrame message (clock 0) := by
  simp only [WebSocketManager.send] at h
  cases hg : mapGet m.connections id with
  | none => simp [hg] at h
  | some c =>
    simp only [hg] at h
    by_cases hr : c.ws.readyState = 1
    · cases hst : c.ws.sendThrows with
      | false => simp [hr, hst] at h; exact h.2.1
      | true => simp [hr, hst] at h; exact h.2.1
    · simp [hr] at h

theorem broadcast_frame_eq (m : WebSocketManager) (message : WSMessage)
    (exclude : List Nat) (clock : Nat → Int) (i : Nat) (f : Frame) (b : Bool)
    (h : Event.sendCall i f b ∈ m.broadcast message exclude clock) :
    f = mkFrame message (clock 0) := by
  simp only [WebSocketManager.broadcast] at h
  rw [List.mem_filterMap] at h
  obtain ⟨p, hp, hf⟩ := h
  by_cases hex : p.1 ∈ exclude
  · simp [hex] at hf
  · by_cases hrs : p.2.ws.readyState = 1
    · simp only [hex, if_false, hrs, if_true, Option.some.injEq] at hf
      cases hf
      rfl
    · simp [hex, hrs] at hf

theorem addConnection_size_inv (m : WebSocketManager) (ws : WebSocket)
    (md : Option Metadata) (h : Inv m) :
    (m.addConnection ws md).2.size = m.size + 1
    ∧ Inv (m.addConnection ws md).2 := by
  have hfree : m.nextId ∉ keysOf m.connections := by
    intro hmem
    obtain ⟨p, hp, he⟩ := List.mem_map.1 hmem
    have hlt := h p hp
    omega
  have hA : (m.addConnection ws md).2
      = { nextId := m.nextId + 1,
          connections :=
            m.connections ++ [(m.nextId, { ws := ws, id := m.nextId, metadata := md })] } := by
    simp [WebSocketManager.addConnection, mapSet_of_not_mem _ _ _ hfree]
  rw [hA]
  constructor
  · simp [WebSocketManager.size]
  · intro p hp
    simp only [List.mem_append, List.mem_singleton] at hp
    dsimp only
    rcases hp with hp | hp
    · have hlt := h p hp
      omega
    · subst hp
      omega

theorem inv_mapDelete (m : WebSocketManager) (id : Nat) (h : Inv m) :
    Inv { m with connections := mapDelete m.connections id } := by
  intro p hp
  exact h p (mapDelete_mem _ _ _ hp)

theorem run_accounting (ops : List Op) : ∀ m : WebSocketManager, Inv m →
    (run m ops).1.size + (run m ops).2 = m.size + addCount ops
    ∧ Inv (run m ops).1 := by
  induction ops with
  | nil => intro m h; exact ⟨by simp [run, addCount], h⟩
  | cons op rest ih =>
    intro m h
    cases op with
    | add ws md =>
      obtain ⟨hs, hinv⟩ := addConnection_size_inv m ws md h
      obtain ⟨ihs, ihinv⟩ := ih _ hinv
      refine ⟨?_, by simpa [run] using ihinv⟩
      simp only [run, addCount] at ihs ⊢
      omega
    | remove id =>
      cases hg : mapGet m.connections id with
      | none =>
        have hnm := not_mem_of_mapGet_eq_none _ _ hg
        have hrm : m.removeConnection id = (false, m) := by
          simp [WebSocketManager.removeConnection, mapHas, hg,
            mapDelete_of_not_mem _ _ hnm]
        obtain ⟨ihs, ihinv⟩ := ih m h
        refine ⟨?_, by simpa [run, hrm] using ihinv⟩
        simp only [run, hrm, addCount, Bool.false_eq_true, if_false]
        omega
      | some c =>
        have hrm : m.removeConnection id
            = (true, { m with connections := mapDelete m.connections id }) := by
          simp [WebSocketManager.removeConnection, mapHas, hg]
        have hsz := mapDelete_length_of_get m.connections id c hg
        obtain ⟨ihs, ihinv⟩ := ih _ (inv_mapDelete m id h)
        refine ⟨?_, by simpa [run, hrm] using ihinv⟩
        simp only [run, hrm, addCount, if_true]
        simp only [WebSocketManager.size] at ihs ⊢
        omega
    | disconnect id =>
      cases hg : mapGet m.connections id with
      | none =>
        have hd : m.disconnect id = (false, m, []) := by
          simp [WebSocketManager.disconnect, hg]
        obtain ⟨ihs, ihinv⟩ := ih m h
        refine ⟨?_, by simpa [run, hd] using ihinv⟩
        simp only [run, hd, addCount, Bool.false_eq_true, if_false]
        omega
      | some c =>
        cases hct : c.ws.closeThrows with
        | true =>
          have hd : m.disconnect id = (false, m, [Event.closeCall id false]) := by
            simp [WebSocketManager.disconnect, hg, hct]
          obtain ⟨ihs, ihinv⟩ := ih m h
          refine ⟨?_, by simpa [run, hd] using ihinv⟩
          simp only [run, hd, addCount, Bool.false_eq_true, if_false]
          omega
        | false =>
          have hd : m.disconnect id
              = (true, { m with connections := mapDelete m.connections id },
                 [Event.closeCall id true]) := by
            simp [WebSocketManager.disconnect, hg, hct]
          have hsz := mapDelete_length_of_get m.connections id c hg
          obtain ⟨ihs, ihinv⟩ := ih _ (inv_mapDelete m id h)
          refine ⟨?_, by simpa [run, hd] using ihinv⟩
          simp only [run, hd, addCount, if_true]
          simp only [WebSocketManager.size] at ihs ⊢
          omega

/-! ## The claims -/

/-- C7: `addConnection(channel, metadata)` always succeeds and returns a
`Connection` record, and an immediately following `getConnection` on the
returned record's id yields that very record, whose channel and metadata
are exactly the arguments passed in. -/
theorem addConnection_getConnection (m : WebSocketManager) (ws : WebSocket)
    (metadata : Option Metadata) :
    (m.addConnection ws metadata).2.getConnection
        (m.addConnection ws metadata).1.id = some (m.addConnection ws metadata).1
    ∧ (m.addConnection ws metadata).1.ws = ws
    ∧ (m.addConnection ws metadata).1.metadata = metadata := by
  refine ⟨?_, rfl, rfl⟩
  simp [WebSocketManager.addConnection, WebSocketManager.getConnection,
    mapGet_mapSet_self]

/-- C3: `send(id, envelope)` on an absent id, or on a connection whose
channel is not OPEN, returns `false` and performs no channel call; the
source method never writes `this.connections` (the embedding returns no
manager), so registry membership is unchanged. -/
theorem send_absent_or_not_open (m : WebSocketManager) (id : Nat)
    (message : WSMessage) (clock : Nat → Int)
    (h : m.getConnection id = none
      ∨ ∃ c, m.getConnection id = some c ∧ c.ws.readyState ≠ 1) :
    m.send id message clock = (false, []) := by
  rcases h with h | ⟨c, hc, hr⟩
  · simp [WebSocketManager.send, WebSocketManager.getConnection] at h ⊢
    rw [h]
  · simp only [WebSocketManager.getConnection] at hc
    simp [WebSocketManager.send, hc, hr]

/-- Witness for C3: sending to id 7 on a registry that only holds id 0
returns `false` with no channel call; so does sending to a registered but
CLOSED channel. -/
theorem send_absent_or_not_open_witness :
    sampleManagerOpen.send 7 { type := "t", data := "d", timestamp := none }
        (fun _ => 5) = (false, [])
    ∧ (WebSocketManager.mk 1
        [(0, { ws := wsClosed, id := 0, metadata := none })]).send 0
        { type := "t", data := "d", timestamp := none } (fun _ => 5)
        = (false, []) :=
  ⟨send_absent_or_not_open sampleManagerOpen 7
      { type := "t", data := "d", timestamp := none } (fun _ => 5)
      (Or.inl (by decide)),
   send_absent_or_not_open
      (WebSocketManager.mk 1 [(0, { ws := wsClosed, id := 0, metadata := none })]) 0
      { type := "t", data := "d", timestamp := none } (fun _ => 5)
      (Or.inr ⟨{ ws := wsClosed, id := 0, metadata := none }, by decide, by decide⟩)⟩

/-- C4: on a registered OPEN connection whose channel `send` throws, the
error is caught: `send` returns `false` (no exception escapes — the
embedding is a total function), the one channel call is the failed write,
and the connection stays registered (the source never mutates
`this.connections` in `send`, so the same manager still retrieves it and
`size` is untouched). -/
theorem send_write_failure_caught (m : WebSocketManager) (id : Nat)
    (c : WSConnection) (message : WSMessage) (clock : Nat → Int)
    (hget : m.getConnection id = some c) (hopen : c.ws.readyState = 1)
    (hthrow : c.ws.sendThrows = true) :
    m.send id message clock
        = (false, [Event.sendCall id (mkFrame message (clock 0)) false])
    ∧ m.getConnection id = some c ∧ m.size = m.size := by
  simp only [WebSocketManager.getConnection] at hget
  refine ⟨?_, hget, rfl⟩
  simp [WebSocketManager.send, hget, hopen, hthrow]

/-- Witness for C4: on the registry whose single OPEN connection throws on
`send`, sending returns `false` with one failed write event, and the
connection is still retrievable. -/
theorem send_write_failure_caught_witness :
    sampleManagerSendThrow.send 0 { type := "t", data := "d", timestamp := none }
        (fun _ => 5)
        = (false, [Event.sendCall 0 { type := "t", data := "d", timestamp := 5 } false])
    ∧ sampleManagerSendThrow.getConnection 0
        = some { ws := wsSendThrow, id := 0, metadata := none }
    ∧ sampleManagerSendThrow.size = sampleManagerSendThrow.size :=
  send_write_failure_caught sampleManagerSendThrow 0
    { ws := wsSendThrow, id := 0, metadata := none }
    { type := "t", data := "d", timestamp := none } (fun _ => 5)
    (by decide) (by decide) (by decide)

/-- C10: on a registered connection whose channel `close` throws,
`disconnect` returns `false` and does not delete the entry (the `delete`
follows the `close()` inside the `try`, so it is never reached): the same
record is still retrievable and `size` is unchanged. -/
theorem disconnect_close_failure_keeps_entry (m : WebSocketManager) (id : Nat)
    (c : WSConnection) (hget : m.getConnection id = some c)
    (hthrow : c.ws.closeThrows = true) :
    m.disconnect id = (false, m, [Event.closeCall id false])
    ∧ (m.disconnect id).2.1.getConnection id = some c
    ∧ (m.disconnect id).2.1.size = m.size := by
  simp only [WebSocketManager.getConnection] at hget
  have hd : m.disconnect id = (false, m, [Event.closeCall id false]) := by
    simp [WebSocketManager.disconnect, hget, hthrow]
  refine ⟨hd, ?_, ?_⟩
  · rw [hd]; exact hget
  · rw [hd]

/-- Witness for C10: on the registry whose single connection throws on
`close`, `disconnect 0` returns `false`, and the record remains. -/
theorem disconnect_close_failure_keeps_entry_witness :
    sampleManagerCloseThrow.disconnect 0
        = (false, sampleManagerCloseThrow, [Event.closeCall 0 false])
    ∧ (sampleManagerCloseThrow.disconnect 0).2.1.getConnection 0
        = some { ws := wsCloseThrow, id := 0, metadata := none }
    ∧ (sampleManagerCloseThrow.disconnect 0).2.1.size
        = sampleManagerCloseThrow.size :=
  disconnect_close_failure_keeps_entry sampleManagerCloseThrow 0
    { ws := wsCloseThrow, id := 0, metadata := none } (by decide) (by decide)

/-- C8: `disconnect(id)` on an absent id returns `false` with no channel
call; on a registered id whose channel close succeeds, it returns `true`,
the channel's `close` is invoked exactly once, and the entry is removed
(`getConnection` is subsequently absent); when closing throws, the error
is caught (the embedding returns normally) and `disconnect` returns
`false`. -/
theorem disconnect_spec (m : WebSocketManager) (id : Nat) :
    (m.getConnection id = none → m.disconnect id = (false, m, []))
    ∧ (∀ c, m.getConnection id = some c → c.ws.closeThrows = false →
        (keysOf m.connections).Nodup →
        (m.disconnect id).1 = true
        ∧ (m.disconnect id).2.1.getConnection id = none
        ∧ (m.disconnect id).2.2 = [Event.closeCall id true]
        ∧ countCloseTo id (m.disconnect id).2.2 = 1)
    ∧ (∀ c, m.getConnection id = some c → c.ws.closeThrows = true →
        (m.disconnect id).1 = false
        ∧ (m.disconnect id).2.2 = [Event.closeCall id false]) := by
  refine ⟨?_, ?_, ?_⟩
  · intro h
    simp only [WebSocketManager.getConnection] at h
    simp [WebSocketManager.disconnect, h]
  · intro c hget hok hnd
    simp only [WebSocketManager.getConnection] at hget
    have hd : m.disconnect id
        = (true, { m with connections := mapDelete m.connections id },
           [Event.closeCall id true]) := by
      simp [WebSocketManager.disconnect, hget, hok]
    refine ⟨by rw [hd], ?_, by rw [hd], by rw [hd]; simp [countCloseTo, List.filter]⟩
    rw [hd]
    simpa [WebSocketManager.getConnection] using mapGet_mapDelete_self m.connections id hnd
  · intro c hget hthrow
    simp only [WebSocketManager.getConnection] at hget
    constructor <;> simp [WebSocketManager.disconnect, hget, hthrow]

/-- Witness for C8: disconnecting an absent id 7 returns `false` and does
nothing; disconnecting the healthy connection 0 returns `true`, closes it
exactly once and removes the entry; disconnecting a connection whose close
throws returns `false`. -/
theorem disconnect_spec_witness :
    sampleManagerOpen.disconnect 7 = (false, sampleManagerOpen, [])
    ∧ ((sampleManagerOpen.disconnect 0).1 = true
       ∧ (sampleManagerOpen.disconnect 0).2.1.getConnection 0 = none
       ∧ (sampleManagerOpen.disconnect 0).2.2 = [Event.closeCall 0 true]
       ∧ countCloseTo 0 (sampleManagerOpen.disconnect 0).2.2 = 1)
    ∧ ((sampleManagerCloseThrow.disconnect 0).1 = false
       ∧ (sampleManagerCloseThrow.disconnect 0).2.2 = [Event.closeCall 0 false]) :=
  ⟨(disconnect_spec sampleManagerOpen 7).1 (by decide),
   (disconnect_spec sampleManagerOpen 0).2.1
      { ws := wsOpenOk, id := 0, metadata := none } (by decide) (by decide) (by decide),
   (disconnect_spec sampleManagerCloseThrow 0).2.2
      { ws := wsCloseThrow, id := 0, metadata := none } (by decide) (by decide)⟩

/-- C9: `clear()` leaves the registry empty (`size()` is 0), attempts to
close the channel of every previously-registered connection even when that
close throws (the per-connection `try`/`catch` swallows the error and the
loop continues), and attempts each close exactly once. -/
theorem clear_spec (m : WebSocketManager) :
    (m.clear).1.size = 0
    ∧ (∀ id c, m.getConnection id = some c →
        Event.closeCall id (!c.ws.closeThrows) ∈ (m.clear).2)
    ∧ ((keysOf m.connections).Nodup → ∀ id c, m.getConnection id = some c →
        countCloseTo id (m.clear).2 = 1) := by
  refine ⟨rfl, ?_, ?_⟩
  · intro id c h
    simp only [WebSocketManager.getConnection] at h
    simpa [WebSocketManager.clear] using
      List.mem_map_of_mem (fun p => Event.closeCall p.1 (!p.2.ws.closeThrows))
        (mapGet_mem m.connections id c h)
  · intro hnd id c h
    simp only [WebSocketManager.getConnection] at h
    simpa [WebSocketManager.clear] using
      countCloseTo_map_one m.connections id c hnd h

/-- Witness for C9: clearing the two-connection registry empties it and
closes each of ids 0 and 1 exactly once. -/
theorem clear_spec_witness :
    (sampleManagerTwo.clear).1.size = 0
    ∧ Event.closeCall 0 true ∈ (sampleManagerTwo.clear).2
    ∧ countCloseTo 0 (sampleManagerTwo.clear).2 = 1
    ∧ countCloseTo 1 (sampleManagerTwo.clear).2 = 1 :=
  ⟨(clear_spec sampleManagerTwo).1,
   (clear_spec sampleManagerTwo).2.1 0
      { ws := wsOpenOk, id := 0, metadata := none } (by decide),
   (clear_spec sampleManagerTwo).2.2 (by decide) 0
      { ws := wsOpenOk, id := 0, metadata := none } (by decide),
   (clear_spec sampleManagerTwo).2.2 (by decide) 1
      { ws := wsOpenOk, id := 1, metadata := none } (by decide)⟩

/-- C1: `broadcast(envelope, excludeIds)` attempts exactly one frame write
to every connection whose id is not excluded and whose channel is OPEN and
none to any other connection; each eligible recipient's write succeeds
exactly when its own channel's `send` does not throw — a throw is caught by
the per-recipient `try`/`catch`, so one recipient's failure never prevents
delivery to the remaining recipients. -/
theorem broadcast_delivery (m : WebSocketManager) (message : WSMessage)
    (exclude : List Nat) (clock : Nat → Int) (id : Nat) (c : WSConnection)
    (hnd : (keysOf m.connections).Nodup) (hget : m.getConnection id = some c) :
    countSendTo id (m.broadcast message exclude clock)
        = (if id ∉ exclude ∧ c.ws.readyState = 1 then 1 else 0)
    ∧ (id ∉ exclude → c.ws.readyState = 1 →
        Event.sendCall id (mkFrame message (clock 0)) (!c.ws.sendThrows)
          ∈ m.broadcast message exclude clock) := by
  simp only [WebSocketManager.getConnection] at hget
  constructor
  · simp only [WebSocketManager.broadcast]
    exact countSendTo_broadcastList m.connections (mkFrame message (clock 0))
      exclude id c hnd hget
  · intro hex hrs
    simp only [WebSocketManager.broadcast]
    rw [List.mem_filterMap]
    refine ⟨(id, c), mapGet_mem m.connections id c hget, ?_⟩
    simp [hex, hrs]

/-- Witness for C1: broadcasting on the two-connection registry excluding
id 1 writes exactly one frame to id 0, none to id 1, and id 0's successful
delivery event is in the log; replacing id 1's channel by one whose `send`
throws still leaves exactly one successful write to id 0. -/
theorem broadcast_delivery_witness :
    countSendTo 0 (sampleManagerTwo.broadcast
        { type := "t", data := "d", timestamp := none } [1] (fun _ => 5)) = 1
    ∧ countSendTo 1 (sampleManagerTwo.broadcast
        { type := "t", data := "d", timestamp := none } [1] (fun _ => 5)) = 0
    ∧ Event.sendCall 0 { type := "t", data := "d", timestamp := 5 } true
        ∈ (WebSocketManager.mk 2
            [(0, { ws := wsOpenOk, id := 0, metadata := none }),
             (1, { ws := wsSendThrow, id := 1, metadata := none })]).broadcast
          { type := "t", data := "d", timestamp := none } [] (fun _ => 5) := by
  have h0 := broadcast_delivery sampleManagerTwo
    { type := "t", data := "d", timestamp := none } [1] (fun _ => 5) 0
    { ws := wsOpenOk, id := 0, metadata := none } (by decide) (by decide)
  have h1 := broadcast_delivery sampleManagerTwo
    { type := "t", data := "d", timestamp := none } [1] (fun _ => 5) 1
    { ws := wsOpenOk, id := 1, metadata := none } (by decide) (by decide)
  have h2 := broadcast_delivery
    (WebSocketManager.mk 2
      [(0, { ws := wsOpenOk, id := 0, metadata := none }),
       (1, { ws := wsSendThrow, id := 1, metadata := none })])
    { type := "t", data := "d", timestamp := none } [] (fun _ => 5) 0
    { ws := wsOpenOk, id := 0, metadata := none } (by decide) (by decide)
  refine ⟨?_, ?_, h2.2 (by decide) (by decide)⟩
  · rw [h0.1]; decide
  · rw [h1.1]; decide

/-- C2 counterexample: the claim includes a supplied timestamp 0, but
`message.timestamp || Date.now()` treats the integer 0 as falsy: sending
an envelope whose timestamp is 0 while the clock reads 99 puts 99 on the
wire, not the supplied 0. -/
theorem send_zero_timestamp_not_preserved :
    (sampleManagerOpen.send 0 { type := "t", data := "d", timestamp := some 0 }
        (fun _ => 99)).2
      = [Event.sendCall 0 { type := "t", data := "d", timestamp := 99 } true]
    ∧ (99 : Int) ≠ 0 := by
  exact ⟨rfl, by decide⟩

/-- C2 amended: a caller-supplied NONZERO timestamp is serialized unchanged
onto the wire by both `send` and `broadcast`; an omitted timestamp — and
likewise the falsy integer 0 — is stamped with the clock sample taken when
`send`/`broadcast` runs (`Date.now()` invocation 0), not at
message-construction time. -/
theorem timestamp_on_wire (m : WebSocketManager) (id i : Nat)
    (message : WSMessage) (exclude : List Nat) (clock : Nat → Int) (t : Int)
    (f : Frame) (b : Bool) :
    (message.timestamp = some t → t ≠ 0 →
      (Event.sendCall i f b ∈ (m.send id message clock).2 → f.timestamp = t)
      ∧ (Event.sendCall i f b ∈ m.broadcast message exclude clock →
          f.timestamp = t))
    ∧ ((message.timestamp = none ∨ message.timestamp = some 0) →
      (Event.sendCall i f b ∈ (m.send id message clock).2 →
          f.timestamp = clock 0)
      ∧ (Event.sendCall i f b ∈ m.broadcast message exclude clock →
          f.timestamp = clock 0)) := by
  constructor
  · intro ht hnz
    constructor
    · intro h
      rw [send_frame_eq m id message clock i f b h]
      simp [mkFrame, stampTimestamp, ht, hnz]
    · intro h
      rw [broadcast_frame_eq m message exclude clock i f b h]
      simp [mkFrame, stampTimestamp, ht, hnz]
  · intro ht
    constructor
    · intro h
      rw [send_frame_eq m id message clock i f b h]
      rcases ht with ht | ht <;> simp [mkFrame, stampTimestamp, ht]
    · intro h
      rw [broadcast_frame_eq m message exclude clock i f b h]
      rcases ht with ht | ht <;> simp [mkFrame, stampTimestamp, ht]

/-- Witness for C2 (amended): a supplied nonzero timestamp 42 arrives
unchanged, and an omitted timestamp arrives as the clock value 5. -/
theorem timestamp_on_wire_witness :
    ({ type := "t", data := "d", timestamp := (42 : Int) } : Frame).timestamp = 42
    ∧ ({ type := "t", data := "d", timestamp := (5 : Int) } : Frame).timestamp = 5 :=
  ⟨((timestamp_on_wire sampleManagerOpen 0 0
      { type := "t", data := "d", timestamp := some 42 } [] (fun _ => 5) 42
      { type := "t", data := "d", timestamp := 42 } true).1
      rfl (by decide)).1 (by decide),
   ((timestamp_on_wire sampleManagerOpen 0 0
      { type := "t", data := "d", timestamp := none } [] (fun _ => 5) 42
      { type := "t", data := "d", timestamp := 5 } true).2
      (Or.inl rfl)).1 (by decide)⟩

/-- C6 counterexample: the code serializes the broadcast payload once,
before the loop; with two open recipients, a missing timestamp and the
strictly increasing clock `n ↦ n`, both wire frames carry the single
stamping `clock 0 = 0`, and the result differs from the spec's reading
under which each recipient's frame is stamped by its own `Date.now()`
invocation (which would give the second recipient timestamp 1). -/
theorem broadcast_not_per_recipient_stamped :
    sampleManagerTwo.broadcast { type := "t", data := "d", timestamp := none }
        [] (fun n => (n : Int))
      = [Event.sendCall 0 { type := "t", data := "d", timestamp := 0 } true,
         Event.sendCall 1 { type := "t", data := "d", timestamp := 0 } true]
    ∧ broadcastPerRecipientStamp sampleManagerTwo
        { type := "t", data := "d", timestamp := none } [] (fun n => (n : Int))
      = [Event.sendCall 0 { type := "t", data := "d", timestamp := 0 } true,
         Event.sendCall 1 { type := "t", data := "d", timestamp := 1 } true]
    ∧ sampleManagerTwo.broadcast { type := "t", data := "d", timestamp := none }
        [] (fun n => (n : Int))
      ≠ broadcastPerRecipientStamp sampleManagerTwo
        { type := "t", data := "d", timestamp := none } [] (fun n => (n : Int)) := by
  refine ⟨rfl, rfl, ?_⟩
  decide

/-- C6 amended: `broadcast` stamps and serializes the payload exactly once,
at broadcast entry (`Date.now()` invocation 0), so every frame written by
one broadcast is that single frame, and with the timestamp omitted all
recipients carry the identical timestamp `clock 0`. -/
theorem broadcast_single_stamping (m : WebSocketManager) (message : WSMessage)
    (exclude : List Nat) (clock : Nat → Int) (i : Nat) (f : Frame) (b : Bool)
    (h : Event.sendCall i f b ∈ m.broadcast message exclude clock) :
    f = mkFrame message (clock 0)
    ∧ (message.timestamp = none → f.timestamp = clock 0) := by
  have hf := broadcast_frame_eq m message exclude clock i f b h
  refine ⟨hf, fun ht => ?_⟩
  rw [hf]
  simp [mkFrame, stampTimestamp, ht]

/-- C5: over any finite sequence of `addConnection`, `removeConnection` and
`disconnect` operations from the empty registry, `size()` equals the number
of adds minus the number of removals/disconnects that returned `true`
(so removing the same id twice counts once, the second call returning
`false`); and removing an absent id returns `false`, raises no error (the
embedding is total) and leaves the registry state unchanged. -/
theorem size_accounting (ops : List Op) (m : WebSocketManager) (id : Nat) :
    ((run WebSocketManager.empty ops).2 ≤ addCount ops
     ∧ (run WebSocketManager.empty ops).1.size
         = addCount ops - (run WebSocketManager.empty ops).2)
    ∧ (m.getConnection id = none → m.removeConnection id = (false, m)) := by
  constructor
  · have h := (run_accounting ops WebSocketManager.empty
      (by intro p hp; simp [WebSocketManager.empty] at hp)).1
    have he : WebSocketManager.empty.size = 0 := rfl
    omega
  · intro hg
    simp only [WebSocketManager.getConnection] at hg
    have hnm := not_mem_of_mapGet_eq_none _ _ hg
    simp [WebSocketManager.removeConnection, mapHas, hg,
      mapDelete_of_not_mem _ _ hnm]

/-- Witness for C5: on the sample sequence (add, remove 0, remove 0 again,
add, disconnect 1, disconnect an absent 5) the accounting holds, and
removing the absent id 9 from the empty registry returns `false` and
changes nothing. -/
theorem size_accounting_witness :
    ((run WebSocketManager.empty sampleOps).2 ≤ addCount sampleOps
     ∧ (run WebSocketManager.empty sampleOps).1.size
         = addCount sampleOps - (run WebSocketManager.empty sampleOps).2)
    ∧ WebSocketManager.empty.removeConnection 9 = (false, WebSocketManager.empty) :=
  ⟨(size_accounting sampleOps WebSocketManager.empty 9).1,
   (size_accounting sampleOps WebSocketManager.empty 9).2 rfl⟩

/-- Witness for C6 (amended): in the two-recipient broadcast with the clock
`n ↦ n`, recipient 1's frame is the single entry-time frame with
timestamp 0. -/
theorem broadcast_single_stamping_witness :
    ({ type := "t", data := "d", timestamp := (0 : Int) } : Frame)
        = mkFrame { type := "t", data := "d", timestamp := none } 0
    ∧ ({ type := "t", data := "d", timestamp := (0 : Int) } : Frame).timestamp = 0 := by
  have h := broadcast_single_stamping sampleManagerTwo
    { type := "t", data := "d", timestamp := none } [] (fun n => (n : Int)) 1
    { type := "t", data := "d", timestamp := 0 } true (by decide)
  exact ⟨h.1, h.2 rfl⟩

end SvelteKitWS
